import Mathlib

/-!
Verification development for the hoymiles-bridge repository.

Shallow embedding of the components the checked claims concern:
* the production cache of `HassMqtt` (`src/hoymiles_smiles/ha.py`):
  `_update_cache`, `_process_plant_data`, `get_states`, `get_configs`,
  `clear_production_today`;
* the persisted `production_cache` table operations
  (`src/hoymiles_mqtt/persistence.py`);
* the day-boundary reset of `MultiDtuCoordinator`
  (`src/hoymiles_mqtt/runners_new.py`);
* the circuit breaker and the recovery wrapper
  (`src/hoymiles_smiles/circuit_breaker.py`);
* the health endpoint (`src/hoymiles_mqtt/health.py`);
* the startup exit codes (`src/hoymiles_mqtt/__main__.py`).

Machine integers of the source (u16/u32 register values) are modelled as
`Nat`; the measurement floats (voltage, frequency, temperature) as `Int` —
they only flow through payloads unchanged and no claim computes with them.
Python dicts (insertion ordered) are modelled as association lists where an
update of an existing key keeps its position and a fresh key is appended.
Log output relevant to the claims (the regression warnings of
`_update_cache`) is modelled as an explicit warning list carried in the
cache state.
-/

namespace HoymilesBridge

/-- Cache key: `(serial_number, port_number)`. -/
abbrev CacheKey := String × Nat

/-- Association-list lookup; models Python `dict.__getitem__` / `in`. -/
def alookup {κ β : Type} [DecidableEq κ] (k : κ) : List (κ × β) → Option β
  | [] => none
  | (k', v) :: rest => if k' = k then some v else alookup k rest

/-- Association-list update; models Python `dict.__setitem__`: an existing
key keeps its position, a fresh key is appended at the end. -/
def aset {κ β : Type} [DecidableEq κ] (k : κ) (v : β) : List (κ × β) → List (κ × β)
  | [] => [(k, v)]
  | (k', v') :: rest => if k' = k then (k, v) :: rest else (k', v') :: aset k v rest

/-- Value of a cache at a key, with the absent key reading as `0`
(the code zero-initializes absent keys before using them). -/
def cacheVal (c : List (CacheKey × Nat)) (k : CacheKey) : Nat :=
  (alookup k c).getD 0

/-- Sum of all values of a cache; models `sum(dict.values())`. -/
def asum (c : List (CacheKey × Nat)) : Nat :=
  (c.map (fun e => e.2)).sum

/-- Models `if cache_key not in cache: cache[cache_key] = ZERO` (ha.py lines 347-350). -/
def zeroInit (key : CacheKey) (c : List (CacheKey × Nat)) : List (CacheKey × Nat) :=
  if (alookup key c).isSome then c else aset key 0 c

/-- One microinverter reading of a `PlantData` snapshot
(`hoymiles_modbus` `MicroinverterData`; the fields `ha.py` reads). -/
structure Microinverter where
  serial_number : String
  port_number : Nat
  grid_voltage : Int
  grid_frequency : Int
  temperature : Int
  operating_status : Nat
  alarm_code : Nat
  alarm_count : Nat
  link_status : Nat
  pv_voltage : Int
  pv_current : Int
  pv_power : Int
  today_production : Nat
  total_production : Nat
deriving DecidableEq, Repr

/-- A `PlantData` snapshot (the fields `ha.py` reads and writes). -/
structure PlantData where
  dtu : String
  pv_power : Int
  today_production : Nat
  total_production : Nat
  alarm_flag : Bool
  inverters : List Microinverter
deriving DecidableEq, Repr

/-- Which production field a regression warning concerns. -/
inductive WField where
  | today
  | total
deriving DecidableEq, Repr

/-- A logged regression warning of `_update_cache` (ha.py lines 355-360 and
365-370): field, serial, port, the incoming value and the cached value. -/
structure Warn where
  wfield : WField
  serial : String
  port : Nat
  incoming : Nat
  cached : Nat
deriving DecidableEq, Repr

/-- The mutable state of `HassMqtt` that the production claims concern:
`_prod_today_cache`, `_prod_total_cache`, and the warnings logged so far. -/
structure CacheState where
  today : List (CacheKey × Nat)
  total : List (CacheKey × Nat)
  warnings : List Warn
deriving DecidableEq, Repr

/-- One loop iteration of `HassMqtt._update_cache` (ha.py lines 345-371):
zero-initialize missing entries, then — only when `operating_status > 0` —
raise the cached today/total values monotonically, clamping a regressed
incoming reading to the cached value (mutating the reading) and logging a
warning. Returns the new state and the (possibly mutated) reading. -/
def updateOne (st : CacheState) (m : Microinverter) : CacheState × Microinverter :=
  let key : CacheKey := (m.serial_number, m.port_number)
  let today1 := zeroInit key st.today
  let total1 := zeroInit key st.total
  if 0 < m.operating_status then
    let ct := cacheVal today1 key
    let cg := cacheVal total1 key
    let todayOk := ct ≤ m.today_production
    let totalOk := cg ≤ m.total_production
    ({ today := if todayOk then aset key m.today_production today1 else today1
       total := if totalOk then aset key m.total_production total1 else total1
       warnings := st.warnings
         ++ (if todayOk then [] else [⟨WField.today, m.serial_number, m.port_number, m.today_production, ct⟩])
         ++ (if totalOk then [] else [⟨WField.total, m.serial_number, m.port_number, m.total_production, cg⟩]) },
     { m with
       today_production := if todayOk then m.today_production else ct
       total_production := if totalOk then m.total_production else cg })
  else
    ({ st with today := today1, total := total1 }, m)

/-- Runs `HassMqtt._update_cache` over the whole inverter list of a snapshot,
returning the final cache state and the mutated readings in order. -/
def updateCacheList (st : CacheState) : List Microinverter → CacheState × List Microinverter
  | [] => (st, [])
  | m :: rest =>
    let p := updateOne st m
    let q := updateCacheList p.1 rest
    (q.1, p.2 :: q.2)

/-- Embeds `HassMqtt._process_plant_data` (ha.py lines 373-376): run the cache
update, then replace the snapshot's DTU-level `today_production` and
`total_production` by the sum of the cached values (`ZERO` when the cache
is empty). -/
def processPlantData (st : CacheState) (p : PlantData) : CacheState × PlantData :=
  let r := updateCacheList st p.inverters
  (r.1,
   { p with
     inverters := r.2
     today_production := if r.1.today.isEmpty then 0 else asum r.1.today
     total_production := if r.1.total.isEmpty then 0 else asum r.1.total })

/-- Embeds `HassMqtt.clear_production_today` (ha.py lines 294-301), in-memory part:
the today cache is replaced by an empty dict; the total cache is untouched. -/
def clearProductionToday (st : CacheState) : CacheState :=
  { st with today := [] }

/-- A row of the persisted `production_cache` table:
key, today_production, total_production. -/
abbrev DbRow := CacheKey × Nat × Nat

/-- Embeds `PersistenceManager.clear_today_production` (persistence.py lines
144-156): `UPDATE production_cache SET today_production = 0`. -/
def clearTodayProductionDb (db : List DbRow) : List DbRow :=
  db.map (fun r => (r.1, 0, r.2.2))

/-! State and config message streams (ha.py `get_states` / `get_configs`).

Payload values are JSON scalars: numbers or strings. The builder is
modelled in its default configuration: all entities of the fixed tables
enabled, no value multipliers, no custom friendly names. Topics are
modelled structurally (platform / device serial / entity key and scope)
rather than as concatenated strings; the write-back to persistence that
`get_states` performs is modelled separately by the persistence layer. -/

/-- A JSON scalar carried in a state payload. -/
inductive PVal where
  | num (n : Int)
  | str (s : String)
deriving DecidableEq, Repr

/-- Payload entry lookup by entity name (`value_json.<name>`). -/
def pLookup (k : String) (payload : List (String × PVal)) : Option PVal :=
  alookup k payload

/-- Inverter-level state payload: `_get_state` with the
`MicroinverterEntities` table (ha.py lines 59-85, 323-342). The three
measurement entities are dropped when `operating_status == 0`. -/
def invPayload (m : Microinverter) : List (String × PVal) :=
  (if m.operating_status = 0 then []
   else [("grid_voltage", PVal.num m.grid_voltage),
         ("grid_frequency", PVal.num m.grid_frequency),
         ("temperature", PVal.num m.temperature)])
  ++ [("operating_status", PVal.num m.operating_status),
      ("alarm_code", PVal.num m.alarm_code),
      ("alarm_count", PVal.num m.alarm_count),
      ("link_status", PVal.num m.link_status)]

/-- Port-level state payload: `_get_state` with the `PortEntities` table
(ha.py lines 87-121). The three measurement entities are dropped when
`operating_status == 0`; the production counters are always carried. -/
def portPayload (m : Microinverter) : List (String × PVal) :=
  (if m.operating_status = 0 then []
   else [("pv_voltage", PVal.num m.pv_voltage),
         ("pv_current", PVal.num m.pv_current),
         ("pv_power", PVal.num m.pv_power)])
  ++ [("today_production", PVal.num m.today_production),
      ("total_production", PVal.num m.total_production)]

/-- DTU-level state payload: `_get_state` with the `DtuEntities` table
(ha.py lines 123-146). `today_production` and `total_production` are
dropped when zero (`_ignore_when_zero`); `alarm_flag` renders as ON/OFF. -/
def dtuPayload (p : PlantData) : List (String × PVal) :=
  ("pv_power", PVal.num p.pv_power)
  :: ((if p.today_production = 0 then []
       else [("today_production", PVal.num p.today_production)])
      ++ (if p.total_production = 0 then []
          else [("total_production", PVal.num p.total_production)])
      ++ [("alarm_flag", PVal.str (if p.alarm_flag then "ON" else "OFF"))])

/-- Scope of a state message, as encoded in its state topic
(ha.py `_get_state_topic`, lines 249-255). -/
inductive MsgScope where
  | dtuScope (serial : String)
  | invScope (serial : String)
  | portScope (serial : String) (port : Nat)
deriving DecidableEq, Repr

/-- Serial number a state message is for. -/
def MsgScope.serialOf : MsgScope → String
  | .dtuScope s => s
  | .invScope s => s
  | .portScope s _ => s

/-- The per-inverter loop of `HassMqtt.get_states` (ha.py lines 392-407):
excluded serials are skipped; the first occurrence of a serial also yields
the inverter-level message; every occurrence yields the port message. -/
def statesForInverters (excl : List String) (known : List String) :
    List Microinverter → List (MsgScope × List (String × PVal))
  | [] => []
  | m :: rest =>
    if m.serial_number ∈ excl then
      statesForInverters excl known rest
    else if m.serial_number ∈ known then
      (MsgScope.portScope m.serial_number m.port_number, portPayload m)
        :: statesForInverters excl known rest
    else
      (MsgScope.invScope m.serial_number, invPayload m)
        :: (MsgScope.portScope m.serial_number m.port_number, portPayload m)
        :: statesForInverters excl (m.serial_number :: known) rest

/-- Embeds `HassMqtt.get_states` (ha.py lines 378-407) with `post_process = True`
(the default): process the snapshot through the cache, emit the DTU state
message, then the per-inverter messages. Returns the new cache state and
the message list. -/
def getStates (excl : List String) (st : CacheState) (p : PlantData) :
    CacheState × List (MsgScope × List (String × PVal)) :=
  let r := processPlantData st p
  (r.1, (MsgScope.dtuScope r.2.dtu, dtuPayload r.2) :: statesForInverters excl [] r.2.inverters)

/-- A discovery (config) message, identified by its config topic parts
(ha.py `_get_config_topic`, lines 245-247): platform, device serial and
entity key (`{entity_prefix}_{entity_name}`). -/
structure ConfigMsg where
  platform : String
  deviceSerial : String
  entityKey : String
deriving DecidableEq, Repr

/-- Entity names of the `DtuEntities` table with their platforms. -/
def dtuEntityNames : List (String × String) :=
  [("pv_power", "sensor"), ("today_production", "sensor"),
   ("total_production", "sensor"), ("alarm_flag", "binary_sensor")]

/-- Entity names of the `MicroinverterEntities` table with their platforms. -/
def miEntityNames : List (String × String) :=
  [("grid_voltage", "sensor"), ("grid_frequency", "sensor"),
   ("temperature", "sensor"), ("operating_status", "sensor"),
   ("alarm_code", "sensor"), ("alarm_count", "sensor"), ("link_status", "sensor")]

/-- Entity names of the `PortEntities` table with their platforms. -/
def portEntityNames : List (String × String) :=
  [("pv_voltage", "sensor"), ("pv_current", "sensor"), ("pv_power", "sensor"),
   ("today_production", "sensor"), ("total_production", "sensor")]

/-- Embeds `HassMqtt._get_config_payloads` (ha.py lines 257-292), restricted to the
config-topic identity: one message per entity; the entity key is
`port_{port}_{name}` for a port scope and `{device_name}_{name}` otherwise. -/
def configsFor (deviceName : String) (serial : String)
    (ents : List (String × String)) (port : Option Nat) : List ConfigMsg :=
  ents.map (fun e =>
    { platform := e.2
      deviceSerial := serial
      entityKey :=
        match port with
        | some pn => "port_" ++ toString pn ++ "_" ++ e.1
        | none => deviceName ++ "_" ++ e.1 })

/-- Embeds `HassMqtt.get_configs` (ha.py lines 303-321): DTU configs, then, for
every inverter reading, the inverter-level and port-level configs. The
loop has no exclusion check. -/
def getConfigs (p : PlantData) : List ConfigMsg :=
  configsFor "DTU" p.dtu dtuEntityNames none
    ++ p.inverters.flatMap (fun m =>
        configsFor "inv" m.serial_number miEntityNames none
          ++ configsFor "inv" m.serial_number portEntityNames (some m.port_number))

/-! Day-boundary reset (`MultiDtuCoordinator`, runners_new.py). -/

/-- Coordinator state the daily reset concerns: `last_reset_date`
(`now.day` of the last reset, `None` at startup) and the production cache
of every DTU job's builder. -/
structure CoordState where
  lastResetDate : Option Nat
  caches : List CacheState
deriving DecidableEq, Repr

/-- Embeds `MultiDtuCoordinator._check_daily_reset` (runners_new.py lines
317-330), applied at a tick whose local time has day-of-month `day` and
hour `hour`: if `hour == reset_hour` and `last_reset_date != day`, clear
every job's today production and record the day. Returns whether the
reset fired together with the new state. -/
def checkDailyReset (resetHour : Nat) (st : CoordState) (day hour : Nat) :
    Bool × CoordState :=
  if hour = resetHour ∧ st.lastResetDate ≠ some day then
    (true, { lastResetDate := some day, caches := st.caches.map clearProductionToday })
  else
    (false, st)

/-- A sequence of day-boundary checks (one per coordinator tick); returns
the final state and the fire flag of every tick, in order. -/
def runResetTicks (resetHour : Nat) (st : CoordState) :
    List (Nat × Nat) → CoordState × List Bool
  | [] => (st, [])
  | t :: rest =>
    let p := checkDailyReset resetHour st t.1 t.2
    let q := runResetTicks resetHour p.2 rest
    (q.1, p.1 :: q.2)

/-! Circuit breaker (`circuit_breaker.py`).

Wall-clock instants are `Nat` seconds; the elapsed-time comparison of
`_should_attempt_reset` is over `Int` so that it matches the Python float
subtraction also when the clock would run backwards. A call's interaction
with the wrapped function is modelled by the `Outcome` the function would
produce when invoked; exceptions raised by the wrapped function are the
`err` outcome. The result of `call` is `Except Unit (Option α)`:
`.ok none` is the open-circuit rejection (`return None`, function not
invoked), `.ok (some a)` a pass-through success, `.error ()` the re-raised
exception of a failed invocation. -/

/-- Circuit breaker states (`CircuitBreakerState`). -/
inductive CBState where
  | closed
  | opened
  | halfOpen
deriving DecidableEq, Repr

/-- A `CircuitBreaker` instance (circuit_breaker.py lines 28-46). -/
structure Breaker where
  failureThreshold : Nat
  timeout : Nat
  state : CBState
  failureCount : Nat
  lastFailureTime : Option Nat
  successCount : Nat
deriving DecidableEq, Repr

/-- Outcome the wrapped function produces when it is actually invoked. -/
inductive Outcome (α : Type) where
  | ok (a : α)
  | err
deriving DecidableEq, Repr

/-- Embeds `CircuitBreaker._should_attempt_reset` (lines 77-81). -/
def shouldAttemptReset (b : Breaker) (now : Nat) : Bool :=
  match b.lastFailureTime with
  | none => true
  | some t => (b.timeout : Int) ≤ (now : Int) - (t : Int)

/-- Embeds `CircuitBreaker._on_success` (lines 83-92): half-open recovery closes
the breaker and resets the counters; otherwise the failure count is
decremented with floor 0 and the success count incremented. -/
def onSuccess (b : Breaker) : Breaker :=
  if b.state = CBState.halfOpen then
    { b with state := CBState.closed, failureCount := 0, successCount := 0 }
  else
    { b with failureCount := b.failureCount - 1, successCount := b.successCount + 1 }

/-- Embeds `CircuitBreaker._on_failure` (lines 94-107): increment the failure
count and record the failure time; a half-open failure reopens, a closed
one opens once the count reaches the threshold. -/
def onFailure (b : Breaker) (now : Nat) : Breaker :=
  let b1 := { b with failureCount := b.failureCount + 1, lastFailureTime := some now }
  if b1.state = CBState.halfOpen then
    { b1 with state := CBState.opened }
  else if b1.failureThreshold ≤ b1.failureCount then
    { b1 with state := CBState.opened }
  else
    b1

/-- Embeds `CircuitBreaker.call` (lines 47-75) at instant `now`, with the
wrapped function's `outcome` when invoked. -/
def call {α : Type} (b : Breaker) (now : Nat) (outcome : Outcome α) :
    Breaker × Except Unit (Option α) :=
  if b.state = CBState.opened then
    if shouldAttemptReset b now then
      let b1 := { b with state := CBState.halfOpen }
      match outcome with
      | Outcome.ok a => (onSuccess b1, Except.ok (some a))
      | Outcome.err => (onFailure b1 now, Except.error ())
    else
      (b, Except.ok none)
  else
    match outcome with
    | Outcome.ok a => (onSuccess b, Except.ok (some a))
    | Outcome.err => (onFailure b now, Except.error ())

/-- Embeds `ErrorRecoveryManager.execute_with_recovery` (lines 210-238) for one
breaker: run the (retry-wrapped) function through the breaker and catch
any exception it re-raises, turning it into `None`. The retry layer is
inside the breaker's protected call, so the breaker sees exactly the one
`outcome` of the whole retry batch. -/
def executeWithRecovery {α : Type} (b : Breaker) (now : Nat) (outcome : Outcome α) :
    Breaker × Option α :=
  match call b now outcome with
  | (b1, Except.ok r) => (b1, r)
  | (b1, Except.error _) => (b1, none)

/-! Health endpoint (`health.py`). -/

/-- The `HealthMetrics` state the `/health` status depends on:
`last_successful_query`, a dict DTU name → wall-clock instant. -/
structure HealthState where
  lastSuccessfulQuery : List (String × Nat)
deriving DecidableEq, Repr

/-- Embeds `HealthMetrics.record_query_success` (health.py lines 49-63), restricted
to the field `/health` reads: `last_successful_query[dtu_name] = time.time()`. -/
def recordQuerySuccess (h : HealthState) (dtuName : String) (now : Nat) : HealthState :=
  { lastSuccessfulQuery := aset dtuName now h.lastSuccessfulQuery }

/-- Embeds `HealthMetrics.is_healthy` (health.py lines 153-173): false before any
success; otherwise true iff some DTU's last success is within
`dtu_offline_threshold` seconds of `now`. -/
def isHealthy (h : HealthState) (now : Nat) (dtuOfflineThreshold : Nat) : Bool :=
  if h.lastSuccessfulQuery.isEmpty then
    false
  else
    h.lastSuccessfulQuery.any (fun e => (now : Int) - (e.2 : Int) < (dtuOfflineThreshold : Int))

/-- Embeds `HealthMetrics.get_health_status` (health.py line 214), restricted to
the `healthy` field: it calls `is_healthy()` with the parameter's default
value `300`. -/
def getHealthStatusHealthy (h : HealthState) (now : Nat) : Bool :=
  isHealthy h now 300

/-- Embeds `HealthCheckHandler._handle_health` (health.py lines 258-267) with
health metrics present: the HTTP status code of `GET /health`. -/
def handleHealthStatus (h : HealthState) (now : Nat) : Nat :=
  if getHealthStatusHealthy h now then 200 else 503

/-- The `/health` status the specification describes, written from the
spec's words for comparison with `handleHealthStatus`: `200` if any DTU
has had a successful query within the configured `dtu_offline_threshold`
seconds, else `503`. -/
def handleHealthStatusSpec (h : HealthState) (now : Nat) (dtuOfflineThreshold : Nat) : Nat :=
  if isHealthy h now dtuOfflineThreshold then 200 else 503

/-! Startup exit codes (`__main__.py`). -/

/-- The exit code of `main` as a function of the three startup conditions
(`__main__.py` lines 165-170 and 214-223): configuration validation
failure exits via `sys.exit(1)`; an MQTT broker connection failure when
not in dry-run mode exits via `sys.exit(1)`; otherwise the main loop runs
and a clean shutdown returns normally, exit code `0`. -/
def mainExitCode (configValid : Bool) (mqttConnectOk : Bool) (dryRun : Bool) : Nat :=
  if ¬ configValid then 1
  else if ¬ dryRun ∧ ¬ mqttConnectOk then 1
  else 0

/-- The exit codes the specification describes, written from the spec's
words for comparison with `mainExitCode`: `0` clean shutdown, `1` invalid
config, `2` MQTT connect failure at startup when not `dry_run`. -/
def mainExitCodeSpec (configValid : Bool) (mqttConnectOk : Bool) (dryRun : Bool) : Nat :=
  if ¬ configValid then 1
  else if ¬ dryRun ∧ ¬ mqttConnectOk then 2
  else 0

/-- A concrete active reading used in the worked examples: the given serial
and port, `operating_status = 1`, all other fields zero. -/
def mkInverter (s : String) (pn : Nat) : Microinverter :=
  ⟨s, pn, 0, 0, 0, 1, 0, 0, 0, 0, 0, 0, 0, 0⟩

/-- The snapshot of the exclusion example of the specification: inverters
A, X and B with one port each. -/
def plantAXB : PlantData :=
  ⟨"DTU1", 0, 0, 0, false, [mkInverter "A" 1, mkInverter "X" 1, mkInverter "B" 1]⟩

/-- Whether a state message is an inverter-level message. -/
def isInvMsg : MsgScope → Bool
  | MsgScope.invScope _ => true
  | _ => false

/-- Whether a state message is a port-level message. -/
def isPortMsg : MsgScope → Bool
  | MsgScope.portScope _ _ => true
  | _ => false

end HoymilesBridge

namespace HoymilesBridge

/-! Association-list lemmas. -/

/-- Lookup after an update: the updated key reads the new value, every
other key is unaffected. -/
theorem alookup_aset {κ β : Type} [DecidableEq κ] (k k' : κ) (v : β) (c : List (κ × β)) :
    alookup k (aset k' v c) = if k' = k then some v else alookup k c := by
  induction c with
  | nil => by_cases h : k' = k <;> simp [alookup, aset, h]
  | cons e rest ih =>
    obtain ⟨a, b⟩ := e
    by_cases h1 : a = k'
    · by_cases h2 : k' = k <;> simp [aset, alookup, h1, h2]
    · by_cases h2 : a = k
      · have h3 : k' ≠ k := fun hk => h1 (h2.trans hk.symm)
        have h4 : k ≠ k' := Ne.symm h3
        simp [aset, alookup, h1, h2, h3, h4]
      · simp [aset, alookup, h1, h2, ih]

/-- Zero-initialization never changes the defaulted value of any key. -/
theorem cacheVal_zeroInit (key : CacheKey) (c : List (CacheKey × Nat)) (k : CacheKey) :
    cacheVal (zeroInit key c) k = cacheVal c k := by
  unfold zeroInit
  by_cases h : (alookup key c).isSome
  · simp [h]
  · simp [h, cacheVal, alookup_aset]
    by_cases hk : key = k
    · subst hk
      have hn : alookup key c = none := Option.not_isSome_iff_eq_none.mp h
      simp [hn]
    · simp [hk]

/-- Zero-initialization leaves every already-present entry untouched. -/
theorem alookup_zeroInit_of_isSome (key : CacheKey) (c : List (CacheKey × Nat)) (k : CacheKey)
    (h : (alookup k c).isSome) : alookup k (zeroInit key c) = alookup k c := by
  unfold zeroInit
  by_cases hkey : (alookup key c).isSome
  · simp [hkey]
  · simp [hkey, alookup_aset]
    intro hk
    subst hk
    exact absurd h hkey

/-- The updated pair is a member of the updated association list. -/
theorem mem_aset {κ β : Type} [DecidableEq κ] (k : κ) (v : β) (c : List (κ × β)) :
    (k, v) ∈ aset k v c := by
  induction c with
  | nil => simp [aset]
  | cons e rest ih =>
    by_cases h : e.1 = k <;> simp [aset, h, ih]

/-- An updated association list is never empty. -/
theorem aset_ne_nil {κ β : Type} [DecidableEq κ] (k : κ) (v : β) (c : List (κ × β)) :
    aset k v c ≠ [] := by
  cases c with
  | nil => simp [aset]
  | cons e rest =>
    by_cases h : e.1 = k <;> simp [aset, h]

/-! Production-cache update lemmas. -/

/-- An idle reading only zero-initializes the missing entries of its key. -/
theorem updateOne_idle (st : CacheState) (m : Microinverter) (h : m.operating_status = 0) :
    updateOne st m =
      ({ st with today := zeroInit (m.serial_number, m.port_number) st.today
                 total := zeroInit (m.serial_number, m.port_number) st.total }, m) := by
  simp [updateOne, h]

/-- One cache update never decreases any cached today value. -/
theorem updateOne_today_mono (st : CacheState) (m : Microinverter) (k : CacheKey) :
    cacheVal st.today k ≤ cacheVal (updateOne st m).1.today k := by
  by_cases h : 0 < m.operating_status
  · simp only [updateOne, h, if_true]
    by_cases hok : cacheVal (zeroInit (m.serial_number, m.port_number) st.today)
        (m.serial_number, m.port_number) ≤ m.today_production
    · simp only [hok, if_true]
      unfold cacheVal
      rw [alookup_aset]
      by_cases hk : (m.serial_number, m.port_number) = k
      · rw [if_pos hk]
        subst hk
        calc cacheVal st.today (m.serial_number, m.port_number)
            = cacheVal (zeroInit (m.serial_number, m.port_number) st.today)
                (m.serial_number, m.port_number) :=
              (cacheVal_zeroInit _ _ _).symm
          _ ≤ m.today_production := hok
          _ = (some m.today_production).getD 0 := rfl
      · rw [if_neg hk]
        exact le_of_eq (cacheVal_zeroInit _ _ _).symm
    · simp only [hok, if_false]
      exact le_of_eq (cacheVal_zeroInit _ _ _).symm
  · simp only [updateOne, h, if_false]
    exact le_of_eq (cacheVal_zeroInit _ _ _).symm

/-- One cache update never decreases any cached total value. -/
theorem updateOne_total_mono (st : CacheState) (m : Microinverter) (k : CacheKey) :
    cacheVal st.total k ≤ cacheVal (updateOne st m).1.total k := by
  by_cases h : 0 < m.operating_status
  · simp only [updateOne, h, if_true]
    by_cases hok : cacheVal (zeroInit (m.serial_number, m.port_number) st.total)
        (m.serial_number, m.port_number) ≤ m.total_production
    · simp only [hok, if_true]
      unfold cacheVal
      rw [alookup_aset]
      by_cases hk : (m.serial_number, m.port_number) = k
      · rw [if_pos hk]
        subst hk
        calc cacheVal st.total (m.serial_number, m.port_number)
            = cacheVal (zeroInit (m.serial_number, m.port_number) st.total)
                (m.serial_number, m.port_number) :=
              (cacheVal_zeroInit _ _ _).symm
          _ ≤ m.total_production := hok
          _ = (some m.total_production).getD 0 := rfl
      · rw [if_neg hk]
        exact le_of_eq (cacheVal_zeroInit _ _ _).symm
    · simp only [hok, if_false]
      exact le_of_eq (cacheVal_zeroInit _ _ _).symm
  · simp only [updateOne, h, if_false]
    exact le_of_eq (cacheVal_zeroInit _ _ _).symm

/-- Applying any sequence of readings never decreases a cached today value. -/
theorem updateCacheList_today_mono (ms : List Microinverter) (st : CacheState) (k : CacheKey) :
    cacheVal st.today k ≤ cacheVal (updateCacheList st ms).1.today k := by
  induction ms generalizing st with
  | nil => simp [updateCacheList]
  | cons m rest ih =>
    simp only [updateCacheList]
    exact le_trans (updateOne_today_mono st m k) (ih (updateOne st m).1)

/-- Applying any sequence of readings never decreases a cached total value. -/
theorem updateCacheList_total_mono (ms : List Microinverter) (st : CacheState) (k : CacheKey) :
    cacheVal st.total k ≤ cacheVal (updateCacheList st ms).1.total k := by
  induction ms generalizing st with
  | nil => simp [updateCacheList]
  | cons m rest ih =>
    simp only [updateCacheList]
    exact le_trans (updateOne_total_mono st m k) (ih (updateOne st m).1)

/-- After an active update, the forwarded reading carries exactly the new
cached today value of its key. -/
theorem updateOne_active_today_eq (st : CacheState) (m : Microinverter)
    (h : 0 < m.operating_status) :
    (updateOne st m).2.today_production =
      cacheVal (updateOne st m).1.today (m.serial_number, m.port_number) := by
  simp only [updateOne, h, if_true]
  by_cases hok : cacheVal (zeroInit (m.serial_number, m.port_number) st.today)
      (m.serial_number, m.port_number) ≤ m.today_production
  · simp only [hok, if_true]
    unfold cacheVal
    rw [alookup_aset, if_pos rfl]
    rfl
  · simp only [hok, if_false]

/-- After an active update, the forwarded reading carries exactly the new
cached total value of its key. -/
theorem updateOne_active_total_eq (st : CacheState) (m : Microinverter)
    (h : 0 < m.operating_status) :
    (updateOne st m).2.total_production =
      cacheVal (updateOne st m).1.total (m.serial_number, m.port_number) := by
  simp only [updateOne, h, if_true]
  by_cases hok : cacheVal (zeroInit (m.serial_number, m.port_number) st.total)
      (m.serial_number, m.port_number) ≤ m.total_production
  · simp only [hok, if_true]
    unfold cacheVal
    rw [alookup_aset, if_pos rfl]
    rfl
  · simp only [hok, if_false]

/-- A regressed today reading is clamped: the cache keeps its value, the
reading is overwritten with it and a warning is logged. -/
theorem updateOne_today_regress (st : CacheState) (m : Microinverter)
    (h : 0 < m.operating_status)
    (hreg : m.today_production < cacheVal st.today (m.serial_number, m.port_number)) :
    cacheVal (updateOne st m).1.today (m.serial_number, m.port_number) =
        cacheVal st.today (m.serial_number, m.port_number) ∧
    (updateOne st m).2.today_production = cacheVal st.today (m.serial_number, m.port_number) ∧
    (⟨WField.today, m.serial_number, m.port_number, m.today_production,
        cacheVal st.today (m.serial_number, m.port_number)⟩ : Warn) ∈
      (updateOne st m).1.warnings := by
  have hct : cacheVal (zeroInit (m.serial_number, m.port_number) st.today)
      (m.serial_number, m.port_number) = cacheVal st.today (m.serial_number, m.port_number) :=
    cacheVal_zeroInit _ _ _
  have hok : ¬ (cacheVal (zeroInit (m.serial_number, m.port_number) st.today)
      (m.serial_number, m.port_number) ≤ m.today_production) := by
    rw [hct]; omega
  simp only [updateOne, h, if_true, hok, if_false]
  refine ⟨hct, hct, ?_⟩
  simp [hct]

/-- A regressed total reading is clamped: the cache keeps its value, the
reading is overwritten with it and a warning is logged. -/
theorem updateOne_total_regress (st : CacheState) (m : Microinverter)
    (h : 0 < m.operating_status)
    (hreg : m.total_production < cacheVal st.total (m.serial_number, m.port_number)) :
    cacheVal (updateOne st m).1.total (m.serial_number, m.port_number) =
        cacheVal st.total (m.serial_number, m.port_number) ∧
    (updateOne st m).2.total_production = cacheVal st.total (m.serial_number, m.port_number) ∧
    (⟨WField.total, m.serial_number, m.port_number, m.total_production,
        cacheVal st.total (m.serial_number, m.port_number)⟩ : Warn) ∈
      (updateOne st m).1.warnings := by
  have hct : cacheVal (zeroInit (m.serial_number, m.port_number) st.total)
      (m.serial_number, m.port_number) = cacheVal st.total (m.serial_number, m.port_number) :=
    cacheVal_zeroInit _ _ _
  have hok : ¬ (cacheVal (zeroInit (m.serial_number, m.port_number) st.total)
      (m.serial_number, m.port_number) ≤ m.total_production) := by
    rw [hct]; omega
  simp only [updateOne, h, if_true, hok, if_false]
  refine ⟨hct, hct, ?_⟩
  simp [hct]

/-- The cache update never touches the operating status of a reading. -/
theorem updateOne_operating_status (st : CacheState) (m : Microinverter) :
    (updateOne st m).2.operating_status = m.operating_status := by
  by_cases h : 0 < m.operating_status
  · simp only [updateOne, h, if_true]
  · simp only [updateOne, h, if_false]

/-- An active port payload carries both production counters verbatim. -/
theorem portPayload_today (m : Microinverter) (h : ¬ m.operating_status = 0) :
    pLookup "today_production" (portPayload m) = some (PVal.num m.today_production) ∧
    pLookup "total_production" (portPayload m) = some (PVal.num m.total_production) := by
  constructor <;> simp [pLookup, portPayload, alookup, h]

/-- The DTU payload carries each production counter exactly when nonzero. -/
theorem dtuPayload_today (q : PlantData) :
    pLookup "today_production" (dtuPayload q) =
      (if q.today_production = 0 then none else some (PVal.num q.today_production)) ∧
    pLookup "total_production" (dtuPayload q) =
      (if q.total_production = 0 then none else some (PVal.num q.total_production)) := by
  constructor <;>
    · by_cases h1 : q.today_production = 0 <;> by_cases h2 : q.total_production = 0 <;>
        simp [dtuPayload, pLookup, alookup, h1, h2]

/-- Post-processing replaces the DTU-level counters by the cache sums. -/
theorem processPlantData_today_sum (st : CacheState) (p : PlantData) :
    (processPlantData st p).2.today_production = asum (processPlantData st p).1.today ∧
    (processPlantData st p).2.total_production = asum (processPlantData st p).1.total := by
  simp only [processPlantData]
  constructor
  · by_cases he : (updateCacheList st p.inverters).1.today.isEmpty
    · rw [List.isEmpty_iff] at he
      simp [he, asum]
    · simp [he]
  · by_cases he : (updateCacheList st p.inverters).1.total.isEmpty
    · rw [List.isEmpty_iff] at he
      simp [he, asum]
    · simp [he]

end HoymilesBridge

namespace HoymilesBridge

/-! Day-boundary reset lemmas. -/

/-- The reset fires exactly when the local hour is the reset hour and the
stored last-reset day differs from the current day. -/
theorem checkDailyReset_fired_iff (rh : Nat) (st : CoordState) (d h : Nat) :
    (checkDailyReset rh st d h).1 = true ↔ (h = rh ∧ st.lastResetDate ≠ some d) := by
  unfold checkDailyReset
  split
  · next hc => simp [hc]
  · next hc => simp [hc]

/-- A tick that does not fire leaves the coordinator state unchanged. -/
theorem checkDailyReset_not_fired (rh : Nat) (st : CoordState) (d h : Nat)
    (hn : (checkDailyReset rh st d h).1 = false) :
    (checkDailyReset rh st d h).2 = st := by
  by_cases hc : (h = rh ∧ st.lastResetDate ≠ some d)
  · exfalso
    simp [checkDailyReset, hc] at hn
  · simp [checkDailyReset, hc]

/-- A tick that fires records the day and clears every job cache. -/
theorem checkDailyReset_fired (rh : Nat) (st : CoordState) (d h : Nat)
    (hf : (checkDailyReset rh st d h).1 = true) :
    (checkDailyReset rh st d h).2.lastResetDate = some d ∧
    (checkDailyReset rh st d h).2.caches = st.caches.map clearProductionToday := by
  by_cases hc : (h = rh ∧ st.lastResetDate ≠ some d)
  · simp [checkDailyReset, hc]
  · exfalso
    simp [checkDailyReset, hc] at hf

/-- Once the last-reset day equals the current day, no further tick of that
day fires. -/
theorem runResetTicks_no_fire (rh d : Nat) (ticks : List (Nat × Nat)) (st : CoordState)
    (hst : st.lastResetDate = some d) (hd : ∀ t ∈ ticks, t.1 = d) :
    (runResetTicks rh st ticks).2.count true = 0 := by
  induction ticks with
  | nil => simp [runResetTicks]
  | cons t rest ih =>
    have htd : t.1 = d := hd t (List.mem_cons_self t rest)
    have hnf : (checkDailyReset rh st t.1 t.2).1 = false := by
      rw [Bool.eq_false_iff]
      intro hf
      exact ((checkDailyReset_fired_iff rh st t.1 t.2).mp hf).2 (htd ▸ hst)
    have hse : (checkDailyReset rh st t.1 t.2).2 = st := checkDailyReset_not_fired _ _ _ _ hnf
    simp only [runResetTicks, hse, hnf]
    simp [List.count_cons, ih (fun u hu => hd u (List.mem_cons_of_mem t hu))]

/-- Over any run of ticks within one day, the reset fires at most once. -/
theorem runResetTicks_at_most_once (rh d : Nat) (ticks : List (Nat × Nat)) (st : CoordState)
    (hd : ∀ t ∈ ticks, t.1 = d) :
    (runResetTicks rh st ticks).2.count true ≤ 1 := by
  induction ticks generalizing st with
  | nil => simp [runResetTicks]
  | cons t rest ih =>
    have htd : t.1 = d := hd t (List.mem_cons_self t rest)
    by_cases hf : (checkDailyReset rh st t.1 t.2).1 = true
    · have h2 := checkDailyReset_fired rh st t.1 t.2 hf
      have hz : (runResetTicks rh (checkDailyReset rh st t.1 t.2).2 rest).2.count true = 0 :=
        runResetTicks_no_fire rh d rest _ (htd ▸ h2.1)
          (fun u hu => hd u (List.mem_cons_of_mem t hu))
      simp only [runResetTicks, hf]
      simp [List.count_cons, hz]
    · rw [Bool.not_eq_true] at hf
      have hse : (checkDailyReset rh st t.1 t.2).2 = st := checkDailyReset_not_fired _ _ _ _ hf
      have hle := ih st (fun u hu => hd u (List.mem_cons_of_mem t hu))
      simp only [runResetTicks, hf, hse]
      simp [List.count_cons]
      omega

/-! Exclusion lemmas for the state stream. -/

/-- The exclusion filter of the state loop is equivalent to running the
loop without exclusions on the pre-filtered inverter list. -/
theorem statesForInverters_filter (excl : List String) (ms : List Microinverter)
    (known : List String) :
    statesForInverters excl known ms =
      statesForInverters [] known (ms.filter (fun m => decide (m.serial_number ∉ excl))) := by
  induction ms generalizing known with
  | nil => simp [statesForInverters]
  | cons m rest ih =>
    by_cases he : m.serial_number ∈ excl
    · have hc : decide (m.serial_number ∉ excl) = false := decide_eq_false (not_not_intro he)
      simp only [statesForInverters, if_pos he, List.filter_cons, hc]
      simp only [Bool.false_eq_true, if_false]
      exact ih known
    · have hc : decide (m.serial_number ∉ excl) = true := decide_eq_true he
      have h0 : ¬ m.serial_number ∈ ([] : List String) := List.not_mem_nil _
      by_cases hk : m.serial_number ∈ known
      · simp only [statesForInverters, if_neg he, if_pos hk, List.filter_cons, hc, if_true]
        simp only [statesForInverters, if_neg h0, if_pos hk]
        rw [ih known]
      · simp only [statesForInverters, if_neg he, if_neg hk, List.filter_cons, hc, if_true]
        simp only [statesForInverters, if_neg h0, if_neg hk]
        rw [ih (m.serial_number :: known)]

/-- No message of the state loop is for an excluded serial. -/
theorem statesForInverters_excluded (excl known : List String) (ms : List Microinverter)
    (s : String) (hs : s ∈ excl) :
    ∀ msg ∈ statesForInverters excl known ms, MsgScope.serialOf msg.1 ≠ s := by
  induction ms generalizing known with
  | nil => simp [statesForInverters]
  | cons m rest ih =>
    intro msg hmsg
    by_cases he : m.serial_number ∈ excl
    · rw [statesForInverters, if_pos he] at hmsg
      exact ih known msg hmsg
    · have hne : m.serial_number ≠ s := fun hh => he (hh ▸ hs)
      by_cases hk : m.serial_number ∈ known
      · rw [statesForInverters, if_neg he, if_pos hk] at hmsg
        rcases List.mem_cons.mp hmsg with h1 | h2
        · rw [h1]
          exact hne
        · exact ih known msg h2
      · rw [statesForInverters, if_neg he, if_neg hk] at hmsg
        rcases List.mem_cons.mp hmsg with h1 | h2
        · rw [h1]
          exact hne
        · rcases List.mem_cons.mp h2 with h3 | h4
          · rw [h3]
            exact hne
          · exact ih (m.serial_number :: known) msg h4

/-! Circuit-breaker lemmas. -/

/-- Whenever a breaker call re-raises, the failure accounting has run: the
failure count is incremented and the failure time refreshed. -/
theorem call_error_accounting (b : Breaker) (now : Nat) (α : Type) (o : Outcome α)
    (e : Unit) (he : (call b now o).2 = Except.error e) :
    (call b now o).1.failureCount = b.failureCount + 1 ∧
    (call b now o).1.lastFailureTime = some now := by
  by_cases hs : b.state = CBState.opened
  · by_cases hr : shouldAttemptReset b now = true
    · cases o with
      | ok a => simp [call, hs, hr] at he
      | err => simp [call, hs, hr, onFailure]
    · rw [Bool.not_eq_true] at hr
      simp [call, hs, hr] at he
  · cases o with
    | ok a => simp [call, hs] at he
    | err =>
      simp [call, hs, onFailure]
      constructor <;> split_ifs <;> rfl

/-- A call that returns the open-circuit rejection leaves the breaker
unchanged. -/
theorem call_rejected (b : Breaker) (now : Nat) (α : Type) (o : Outcome α)
    (hn : (call b now o).2 = Except.ok none) : call b now o = (b, Except.ok none) := by
  by_cases hs : b.state = CBState.opened
  · by_cases hr : shouldAttemptReset b now = true
    · cases o with
      | ok a => simp [call, hs, hr] at hn
      | err => simp [call, hs, hr] at hn
    · rw [Bool.not_eq_true] at hr
      simp [call, hs, hr]
  · cases o with
    | ok a => simp [call, hs] at hn
    | err => simp [call, hs] at hn

end HoymilesBridge

namespace HoymilesBridge

/-- C1: for every (serial, port) key the cached today and total production
values are monotonically non-decreasing over any sequence of readings
applied through the production cache, and for every active reading
(operating_status > 0) the forwarded reading carries exactly the cached
values (so every downstream state message does too, witnessed by the port
payload entries); whenever an incoming today (resp. total) value is
strictly smaller than the cached value, the cache keeps its value, the
reading field is overwritten with the cached value and a regression
warning is logged. -/
theorem c1_production_cache_monotone_clamp :
    (∀ (st : CacheState) (ms : List Microinverter) (k : CacheKey),
       cacheVal st.today k ≤ cacheVal (updateCacheList st ms).1.today k ∧
       cacheVal st.total k ≤ cacheVal (updateCacheList st ms).1.total k) ∧
    (∀ (st : CacheState) (m : Microinverter), 0 < m.operating_status →
       (updateOne st m).2.today_production =
           cacheVal (updateOne st m).1.today (m.serial_number, m.port_number) ∧
       (updateOne st m).2.total_production =
           cacheVal (updateOne st m).1.total (m.serial_number, m.port_number) ∧
       pLookup "today_production" (portPayload (updateOne st m).2) =
           some (PVal.num (updateOne st m).2.today_production) ∧
       pLookup "total_production" (portPayload (updateOne st m).2) =
           some (PVal.num (updateOne st m).2.total_production) ∧
       (m.today_production < cacheVal st.today (m.serial_number, m.port_number) →
          cacheVal (updateOne st m).1.today (m.serial_number, m.port_number) =
              cacheVal st.today (m.serial_number, m.port_number) ∧
          (updateOne st m).2.today_production =
              cacheVal st.today (m.serial_number, m.port_number) ∧
          (⟨WField.today, m.serial_number, m.port_number, m.today_production,
              cacheVal st.today (m.serial_number, m.port_number)⟩ : Warn) ∈
            (updateOne st m).1.warnings) ∧
       (m.total_production < cacheVal st.total (m.serial_number, m.port_number) →
          cacheVal (updateOne st m).1.total (m.serial_number, m.port_number) =
              cacheVal st.total (m.serial_number, m.port_number) ∧
          (updateOne st m).2.total_production =
              cacheVal st.total (m.serial_number, m.port_number) ∧
          (⟨WField.total, m.serial_number, m.port_number, m.total_production,
              cacheVal st.total (m.serial_number, m.port_number)⟩ : Warn) ∈
            (updateOne st m).1.warnings)) := by
  constructor
  · intro st ms k
    exact ⟨updateCacheList_today_mono ms st k, updateCacheList_total_mono ms st k⟩
  · intro st m h
    have hs : (updateOne st m).2.operating_status = m.operating_status :=
      updateOne_operating_status st m
    have h0 : ¬ (updateOne st m).2.operating_status = 0 := by omega
    refine ⟨updateOne_active_today_eq st m h, updateOne_active_total_eq st m h,
      (portPayload_today _ h0).1, (portPayload_today _ h0).2, ?_, ?_⟩
    · intro hreg
      exact updateOne_today_regress st m h hreg
    · intro hreg
      exact updateOne_total_regress st m h hreg

/-- C1 witness: the regression example of the specification, cache 1050 and
incoming 900 for (A, 1). -/
theorem c1_production_cache_monotone_clamp_witness :
    0 < (⟨"A", 1, 0, 0, 0, 1, 0, 0, 0, 0, 0, 0, 900, 4900⟩ : Microinverter).operating_status ∧
    (900 : Nat) < cacheVal [((("A" : String), (1 : Nat)), (1050 : Nat))] ("A", 1) ∧
    cacheVal (updateOne ⟨[(("A", 1), 1050)], [(("A", 1), 5000)], []⟩
        ⟨"A", 1, 0, 0, 0, 1, 0, 0, 0, 0, 0, 0, 900, 4900⟩).1.today ("A", 1) = 1050 ∧
    (updateOne ⟨[(("A", 1), 1050)], [(("A", 1), 5000)], []⟩
        ⟨"A", 1, 0, 0, 0, 1, 0, 0, 0, 0, 0, 0, 900, 4900⟩).2.today_production = 1050 := by
  have h := (c1_production_cache_monotone_clamp.2
      (⟨[(("A", 1), 1050)], [(("A", 1), 5000)], []⟩ : CacheState)
      (⟨"A", 1, 0, 0, 0, 1, 0, 0, 0, 0, 0, 0, 900, 4900⟩ : Microinverter) (by decide))
  have hreg := h.2.2.2.2.1 (by decide)
  refine ⟨by decide, by decide, ?_, ?_⟩
  · rw [hreg.1]; decide
  · rw [hreg.2.1]; decide

/-- C2: the day-boundary check fires exactly when the local hour equals the
reset hour and the stored last-reset day differs from the current day; a
firing tick clears the today production of every job and records the day,
any later tick of the same day does not fire again, a reset-hour tick on a
different (e.g. the following) day fires again, and over any sequence of
ticks within one calendar day the reset fires at most once. -/
theorem c2_daily_reset :
    (∀ (rh : Nat) (st : CoordState) (d h : Nat),
       (checkDailyReset rh st d h).1 = true ↔ (h = rh ∧ st.lastResetDate ≠ some d)) ∧
    (∀ (rh : Nat) (st : CoordState) (d h : Nat), (checkDailyReset rh st d h).1 = true →
       (checkDailyReset rh st d h).2.lastResetDate = some d ∧
       (checkDailyReset rh st d h).2.caches = st.caches.map clearProductionToday ∧
       ∀ c ∈ (checkDailyReset rh st d h).2.caches, c.today = []) ∧
    (∀ (rh : Nat) (st : CoordState) (d h h' : Nat), (checkDailyReset rh st d h).1 = true →
       (checkDailyReset rh (checkDailyReset rh st d h).2 d h').1 = false) ∧
    (∀ (rh : Nat) (st : CoordState) (d h d' : Nat), (checkDailyReset rh st d h).1 = true →
       d' ≠ d →
       (checkDailyReset rh (checkDailyReset rh st d h).2 d' rh).1 = true) ∧
    (∀ (rh d : Nat) (st : CoordState) (ticks : List (Nat × Nat)),
       (∀ t ∈ ticks, t.1 = d) → (runResetTicks rh st ticks).2.count true ≤ 1) := by
  refine ⟨checkDailyReset_fired_iff, ?_, ?_, ?_, ?_⟩
  · intro rh st d h hf
    obtain ⟨h1, h2⟩ := checkDailyReset_fired rh st d h hf
    refine ⟨h1, h2, ?_⟩
    intro c hc
    rw [h2] at hc
    obtain ⟨c0, _, hc0⟩ := List.mem_map.mp hc
    rw [← hc0]
    rfl
  · intro rh st d h h' hf
    have h1 := (checkDailyReset_fired rh st d h hf).1
    rw [Bool.eq_false_iff]
    intro hf2
    exact ((checkDailyReset_fired_iff _ _ _ _).mp hf2).2 h1
  · intro rh st d h d' hf hne
    have h1 := (checkDailyReset_fired rh st d h hf).1
    refine (checkDailyReset_fired_iff _ _ _ _).mpr ⟨rfl, ?_⟩
    rw [h1]
    simp [Ne.symm hne]
  · intro rh d st ticks hd
    exact runResetTicks_at_most_once rh d ticks st hd

/-- C2 witness: the reset-hour example of the specification, reset hour 23,
a firing tick on day 5, a non-firing later tick the same day and a firing
tick on day 6. -/
theorem c2_daily_reset_witness :
    (checkDailyReset 23 ⟨none, [⟨[((("A" : String), (1 : Nat)), (500 : Nat))],
        [((("A" : String), (1 : Nat)), (12000 : Nat))], []⟩]⟩ 5 23).1 = true ∧
    (∀ c ∈ (checkDailyReset 23 ⟨none, [⟨[((("A" : String), (1 : Nat)), (500 : Nat))],
        [((("A" : String), (1 : Nat)), (12000 : Nat))], []⟩]⟩ 5 23).2.caches, c.today = []) ∧
    (checkDailyReset 23 (checkDailyReset 23 ⟨none, [⟨[((("A" : String), (1 : Nat)), (500 : Nat))],
        [((("A" : String), (1 : Nat)), (12000 : Nat))], []⟩]⟩ 5 23).2 5 45).1 = false ∧
    (checkDailyReset 23 (checkDailyReset 23 ⟨none, [⟨[((("A" : String), (1 : Nat)), (500 : Nat))],
        [((("A" : String), (1 : Nat)), (12000 : Nat))], []⟩]⟩ 5 23).2 6 23).1 = true := by
  have hf : (checkDailyReset 23 (⟨none, [⟨[((("A" : String), (1 : Nat)), (500 : Nat))],
      [((("A" : String), (1 : Nat)), (12000 : Nat))], []⟩]⟩ : CoordState) 5 23).1 = true :=
    (c2_daily_reset.1 23 _ 5 23).mpr (by simp)
  refine ⟨hf, (c2_daily_reset.2.1 23 _ 5 23 hf).2.2, c2_daily_reset.2.2.1 23 _ 5 23 45 hf,
    c2_daily_reset.2.2.2.1 23 _ 5 23 6 hf (by decide)⟩

/-- C3: after the cache-processing step of get_states, the DTU-level
today (resp. total) production of the snapshot equals the sum of all
cached per-(serial, port) today (resp. total) values; the DTU state
message emitted first by get_states is built from that processed
snapshot, and its payload carries that sum whenever it is nonzero. -/
theorem c3_dtu_aggregate_is_cache_sum (excl : List String) (st : CacheState) (p : PlantData) :
    (processPlantData st p).2.today_production = asum (processPlantData st p).1.today ∧
    (processPlantData st p).2.total_production = asum (processPlantData st p).1.total ∧
    (getStates excl st p).2.head? =
      some (MsgScope.dtuScope (processPlantData st p).2.dtu,
            dtuPayload (processPlantData st p).2) ∧
    pLookup "today_production" (dtuPayload (processPlantData st p).2) =
      (if asum (processPlantData st p).1.today = 0 then none
       else some (PVal.num (asum (processPlantData st p).1.today))) ∧
    pLookup "total_production" (dtuPayload (processPlantData st p).2) =
      (if asum (processPlantData st p).1.total = 0 then none
       else some (PVal.num (asum (processPlantData st p).1.total))) := by
  obtain ⟨h1, h2⟩ := processPlantData_today_sum st p
  refine ⟨h1, h2, rfl, ?_, ?_⟩
  · rw [← h1, (dtuPayload_today _).1]
  · rw [← h2, (dtuPayload_today _).2]

/-- C4 counterexample: an idle reading (operating_status = 0) with a fresh
key does mutate the cache — a zero entry is created for its key, refuting
the claim that the cache is left completely unchanged with no entry
created. -/
theorem c4_counterexample :
    (⟨"A", 1, 0, 0, 0, 0, 0, 0, 0, 0, 0, 0, 0, 0⟩ : Microinverter).operating_status = 0 ∧
    (updateOne ⟨[], [], []⟩ ⟨"A", 1, 0, 0, 0, 0, 0, 0, 0, 0, 0, 0, 0, 0⟩).1.today ≠
      (⟨[], [], []⟩ : CacheState).today := by
  decide

/-- C4 (amended): for a reading with operating_status = 0 the cache update
changes no cached value and logs nothing: the reading is forwarded
unmodified, every existing entry is untouched, the defaulted value of
every key is unchanged, and the only mutation is the zero-initialization
of a missing entry for the reading key. -/
theorem c4_idle_frame (st : CacheState) (m : Microinverter) (h : m.operating_status = 0) :
    (updateOne st m).2 = m ∧
    (updateOne st m).1.warnings = st.warnings ∧
    (updateOne st m).1.today = zeroInit (m.serial_number, m.port_number) st.today ∧
    (updateOne st m).1.total = zeroInit (m.serial_number, m.port_number) st.total ∧
    (∀ k, cacheVal (updateOne st m).1.today k = cacheVal st.today k) ∧
    (∀ k, cacheVal (updateOne st m).1.total k = cacheVal st.total k) ∧
    (∀ k, (alookup k st.today).isSome → alookup k (updateOne st m).1.today = alookup k st.today) ∧
    (∀ k, (alookup k st.total).isSome → alookup k (updateOne st m).1.total = alookup k st.total) := by
  rw [updateOne_idle st m h]
  refine ⟨rfl, rfl, rfl, rfl, ?_, ?_, ?_, ?_⟩
  · intro k; exact cacheVal_zeroInit _ _ _
  · intro k; exact cacheVal_zeroInit _ _ _
  · intro k hk; exact alookup_zeroInit_of_isSome _ _ _ hk
  · intro k hk; exact alookup_zeroInit_of_isSome _ _ _ hk

/-- C4 witness: an idle reading for (B, 2) leaves the reading unmodified
and the existing entry for (A, 1) unchanged. -/
theorem c4_idle_frame_witness :
    (updateOne ⟨[((("A" : String), (1 : Nat)), (500 : Nat))],
        [((("A" : String), (1 : Nat)), (700 : Nat))], []⟩
        ⟨"B", 2, 0, 0, 0, 0, 0, 0, 0, 0, 0, 0, 3, 4⟩).2 =
      ⟨"B", 2, 0, 0, 0, 0, 0, 0, 0, 0, 0, 0, 3, 4⟩ ∧
    cacheVal (updateOne ⟨[((("A" : String), (1 : Nat)), (500 : Nat))],
        [((("A" : String), (1 : Nat)), (700 : Nat))], []⟩
        ⟨"B", 2, 0, 0, 0, 0, 0, 0, 0, 0, 0, 0, 3, 4⟩).1.today ("A", 1) = 500 := by
  have h := c4_idle_frame
    ⟨[((("A" : String), (1 : Nat)), (500 : Nat))], [((("A" : String), (1 : Nat)), (700 : Nat))], []⟩
    ⟨"B", 2, 0, 0, 0, 0, 0, 0, 0, 0, 0, 0, 3, 4⟩ rfl
  refine ⟨h.1, ?_⟩
  rw [h.2.2.2.2.1 ("A", 1)]
  decide

/-- C5: immediately after clear_production_today every in-memory today
entry reads zero (the today dict is emptied), the in-memory total cache
and the warnings are untouched, and in the persisted production_cache
table every row gets today_production 0 while its key and
total_production are unchanged. -/
theorem c5_clear_today (st : CacheState) (db : List DbRow) :
    (clearProductionToday st).today = [] ∧
    (∀ k, cacheVal (clearProductionToday st).today k = 0) ∧
    (clearProductionToday st).total = st.total ∧
    (clearProductionToday st).warnings = st.warnings ∧
    (clearTodayProductionDb db).map (fun r => r.2.1) = List.replicate db.length 0 ∧
    (clearTodayProductionDb db).map (fun r => (r.1, r.2.2)) = db.map (fun r => (r.1, r.2.2)) := by
  refine ⟨rfl, fun k => rfl, rfl, rfl, ?_, ?_⟩
  · induction db with
    | nil => rfl
    | cons r rest ih => simp [clearTodayProductionDb, List.replicate] at ih ⊢; exact ih
  · simp [clearTodayProductionDb, List.map_map]

end HoymilesBridge

namespace HoymilesBridge

/-- C6 counterexample: with exclude_inverters containing X, get_configs on
the A/X/B snapshot still yields config messages for X (one per inverter
and port entity, 12 in total) — the config stream has no exclusion check,
refuting the claim that no message for an excluded serial is produced in
either output stream. -/
theorem c6_counterexample :
    ("X" ∈ ["X"]) ∧
    (getConfigs plantAXB).countP (fun c => c.deviceSerial == "X") = 12 := by
  decide

/-- C6 (amended): excluded serials are silently skipped in the state stream
only: get_states yields no inverter-level or port-level message for an
excluded serial, and the rest of the state stream is exactly the stream of
the snapshot with the excluded inverters removed; on the A/X/B example
with X excluded, exactly two inverter-level and two port messages are
emitted and none for X. The config stream still carries excluded serials
(see the counterexample). -/
theorem c6_state_exclusion (excl : List String) (st : CacheState) (p : PlantData) (s : String)
    (hs : s ∈ excl) :
    (∀ msg ∈ (getStates excl st p).2,
        msg.1 ≠ MsgScope.invScope s ∧ ∀ pn, msg.1 ≠ MsgScope.portScope s pn) ∧
    (getStates excl st p).2.tail =
      statesForInverters [] []
        (((processPlantData st p).2.inverters).filter
          (fun m => decide (m.serial_number ∉ excl))) ∧
    ((getStates ["X"] ⟨[], [], []⟩ plantAXB).2.countP (fun msg => isInvMsg msg.1) = 2 ∧
     (getStates ["X"] ⟨[], [], []⟩ plantAXB).2.countP (fun msg => isPortMsg msg.1) = 2 ∧
     (getStates ["X"] ⟨[], [], []⟩ plantAXB).2.countP
        (fun msg => MsgScope.serialOf msg.1 == "X") = 0) := by
  refine ⟨?_, ?_, by decide, by decide, by decide⟩
  · intro msg hmsg
    rcases List.mem_cons.mp hmsg with h1 | h2
    · constructor
      · rw [h1]
        intro hcon
        exact MsgScope.noConfusion hcon
      · intro pn
        rw [h1]
        intro hcon
        exact MsgScope.noConfusion hcon
    · have hser := statesForInverters_excluded excl [] (processPlantData st p).2.inverters s hs msg h2
      constructor
      · intro hcon
        apply hser
        rw [hcon]
        rfl
      · intro pn hcon
        apply hser
        rw [hcon]
        rfl
  · rw [getStates]
    simp only [List.tail_cons]
    exact statesForInverters_filter excl _ []

/-- C6 witness: on the A/X/B example with X excluded, the state stream has
no message for X. -/
theorem c6_state_exclusion_witness :
    (getStates ["X"] ⟨[], [], []⟩ plantAXB).2.countP
        (fun msg => MsgScope.serialOf msg.1 == "X") = 0 :=
  (c6_state_exclusion ["X"] ⟨[], [], []⟩ plantAXB "X" (by decide)).2.2.2.2

/-- C7: the circuit breaker implements the specified three-state machine.
Closed: a success passes through and decrements the failure count with
floor 0 (Nat subtraction); an exception re-raises, increments the count,
records the failure time, and opens the breaker exactly when the count
reaches the threshold. Open: a call before timeout seconds have elapsed
since the last failure returns the rejection (None) without invoking the
function and leaves the breaker unchanged; a call at or after that point
permits the invocation, closing with reset counts on success and
reopening with a refreshed failure timestamp on failure. HalfOpen: the
permitted call closes with reset counts on success and reopens with a
refreshed timestamp on failure. -/
theorem c7_circuit_breaker (b : Breaker) (now t : Nat) (α : Type) (a : α) (o : Outcome α) :
    (b.state = CBState.closed →
       call b now (Outcome.ok a) =
         ({ b with failureCount := b.failureCount - 1, successCount := b.successCount + 1 },
          Except.ok (some a))) ∧
    (b.state = CBState.closed →
       (call b now (Outcome.err : Outcome α)).2 = Except.error () ∧
       (call b now (Outcome.err : Outcome α)).1.failureCount = b.failureCount + 1 ∧
       (call b now (Outcome.err : Outcome α)).1.lastFailureTime = some now ∧
       (b.failureThreshold ≤ b.failureCount + 1 →
         (call b now (Outcome.err : Outcome α)).1.state = CBState.opened) ∧
       (b.failureCount + 1 < b.failureThreshold →
         (call b now (Outcome.err : Outcome α)).1.state = CBState.closed)) ∧
    (b.state = CBState.opened → b.lastFailureTime = some t →
       (now : Int) - (t : Int) < (b.timeout : Int) →
       call b now o = (b, Except.ok none)) ∧
    (b.state = CBState.opened → b.lastFailureTime = some t →
       (b.timeout : Int) ≤ (now : Int) - (t : Int) →
       call b now (Outcome.ok a) =
         ({ b with state := CBState.closed, failureCount := 0, successCount := 0 },
          Except.ok (some a)) ∧
       call b now (Outcome.err : Outcome α) =
         ({ b with
            state := CBState.opened
            failureCount := b.failureCount + 1
            lastFailureTime := some now }, Except.error ())) ∧
    (b.state = CBState.halfOpen →
       call b now (Outcome.ok a) =
         ({ b with state := CBState.closed, failureCount := 0, successCount := 0 },
          Except.ok (some a)) ∧
       call b now (Outcome.err : Outcome α) =
         ({ b with
            state := CBState.opened
            failureCount := b.failureCount + 1
            lastFailureTime := some now }, Except.error ())) := by
  refine ⟨?_, ?_, ?_, ?_, ?_⟩
  · intro hcl
    simp [call, onSuccess, hcl]
  · intro hcl
    by_cases hth : b.failureThreshold ≤ b.failureCount + 1
    · constructor
      · simp [call, onFailure, hcl]
      · constructor
        · simp [call, onFailure, hcl, hth]
        · constructor
          · simp [call, onFailure, hcl, hth]
          · constructor
            · intro _
              simp [call, onFailure, hcl, hth]
            · intro hlt
              omega
    · constructor
      · simp [call, onFailure, hcl]
      · constructor
        · simp [call, onFailure, hcl, hth]
        · constructor
          · simp [call, onFailure, hcl, hth]
          · constructor
            · intro hge
              omega
            · intro _
              simp [call, onFailure, hcl, hth]
  · intro hop hlf hlt
    have hr : shouldAttemptReset b now = false := by
      simp [shouldAttemptReset, hlf]
      omega
    simp [call, hop, hr]
  · intro hop hlf hge
    have hr : shouldAttemptReset b now = true := by
      simp [shouldAttemptReset, hlf]
      omega
    constructor
    · simp [call, hop, hr, onSuccess]
    · simp [call, hop, hr, onFailure]
  · intro hho
    have hns : b.state ≠ CBState.opened := by
      rw [hho]
      intro hcon
      exact CBState.noConfusion hcon
    constructor
    · simp [call, hns, onSuccess, hho]
    · simp [call, hns, onFailure, hho]

/-- C7 witness: a closed breaker with failure count 2 handles a successful
call by decrementing the count and passing the result through. -/
theorem c7_circuit_breaker_witness :
    call (⟨5, 60, CBState.closed, 2, none, 0⟩ : Breaker) 7 (Outcome.ok (42 : Nat)) =
      (⟨5, 60, CBState.closed, 1, none, 1⟩, Except.ok (some 42)) := by
  have h := (c7_circuit_breaker ⟨5, 60, CBState.closed, 2, none, 0⟩ 7 0 Nat 42
      (Outcome.ok 42)).1 rfl
  rw [h]
  rfl

/-- C8 counterexample: with a configured dtu_offline_threshold of 60 and a
last success 100 seconds old, the handler returns 200 while the status the
claim specifies for that configuration is 503 — the handler consults only
the default threshold of 300, never the configured one. -/
theorem c8_counterexample :
    handleHealthStatus ⟨[("roof", 0)]⟩ 100 = 200 ∧
    handleHealthStatusSpec ⟨[("roof", 0)]⟩ 100 60 = 503 := by
  decide

/-- C8 (amended): GET /health returns 200 exactly when at least one DTU has
had a successful query within the default threshold of 300 seconds — the
configured dtu_offline_threshold is not consulted. Before any successful
query it returns 503; after a recorded success within 300 seconds it
returns 200; once 300 seconds elapse without a further success it returns
503 again. -/
theorem c8_health_default_threshold :
    (∀ now : Nat, handleHealthStatus ⟨[]⟩ now = 503) ∧
    (∀ (h : HealthState) (name : String) (t now : Nat),
       (now : Int) - (t : Int) < 300 →
       handleHealthStatus (recordQuerySuccess h name t) now = 200) ∧
    (∀ (name : String) (t now : Nat), (300 : Int) ≤ (now : Int) - (t : Int) →
       handleHealthStatus ⟨[(name, t)]⟩ now = 503) ∧
    (∀ (h : HealthState) (now : Nat),
       handleHealthStatus h now = handleHealthStatusSpec h now 300) := by
  refine ⟨?_, ?_, ?_, ?_⟩
  · intro now
    simp [handleHealthStatus, getHealthStatusHealthy, isHealthy]
  · intro h name t now hlt
    have hmem : (name, t) ∈ aset name t h.lastSuccessfulQuery :=
      mem_aset name t h.lastSuccessfulQuery
    have hne : aset name t h.lastSuccessfulQuery ≠ [] :=
      aset_ne_nil name t h.lastSuccessfulQuery
    have hempty : (aset name t h.lastSuccessfulQuery).isEmpty = false := by
      rw [List.isEmpty_eq_false]
      exact hne
    simp [handleHealthStatus, getHealthStatusHealthy, isHealthy, recordQuerySuccess,
      hempty]
    exact ⟨name, t, hmem, by omega⟩
  · intro name t now hge
    simp [handleHealthStatus, getHealthStatusHealthy, isHealthy]
    omega
  · intro h now
    rfl

/-- C8 witness: a success recorded at instant 0 makes /health return 200 at
instant 100. -/
theorem c8_health_default_threshold_witness :
    handleHealthStatus (recordQuerySuccess ⟨[]⟩ "roof" 0) 100 = 200 := by
  exact c8_health_default_threshold.2.1 ⟨[]⟩ "roof" 0 100 (by decide)

/-- C9 counterexample: when configuration is valid but the MQTT broker
connection fails and dry_run is not set, the process exits with code 1,
not the code 2 the claim specifies. -/
theorem c9_counterexample :
    mainExitCode true false false = 1 ∧ mainExitCodeSpec true false false = 2 := by
  decide

/-- C9 (amended): exit code 0 on clean shutdown and exit code 1 both when
configuration validation fails and when the MQTT broker connection fails
at startup without dry_run; in dry-run mode a broker failure does not
abort, and no execution path exits with code 2, so the exit code does not
discriminate the two startup failure causes. -/
theorem c9_exit_codes :
    (∀ mq dr, mainExitCode false mq dr = 1) ∧
    (mainExitCode true false false = 1) ∧
    (∀ mq, mainExitCode true mq true = 0) ∧
    (mainExitCode true true false = 0) ∧
    (∀ cv mq dr, mainExitCode cv mq dr ∈ ([0, 1] : List Nat)) := by
  decide

/-- C10: execute_with_recovery never propagates an exception: whenever the
wrapped (retry-batched) call re-raises through the breaker, the failure
accounting has run (failure count incremented, failure time refreshed) and
the method returns None with that breaker state; an open-circuit rejection
returns None with the breaker untouched; and the method returns a value
exactly when the protected call succeeded with that value. -/
theorem c10_execute_recovery (b : Breaker) (now : Nat) (α : Type) (o : Outcome α) :
    (∀ e : Unit, (call b now o).2 = Except.error e →
       executeWithRecovery b now o = ((call b now o).1, none) ∧
       (executeWithRecovery b now o).1.failureCount = b.failureCount + 1 ∧
       (executeWithRecovery b now o).1.lastFailureTime = some now) ∧
    (∀ a : α, (call b now o).2 = Except.ok (some a) →
       executeWithRecovery b now o = ((call b now o).1, some a)) ∧
    ((call b now o).2 = Except.ok none → executeWithRecovery b now o = (b, none)) ∧
    (∀ a : α, (executeWithRecovery b now o).2 = some a →
       (call b now o).2 = Except.ok (some a)) := by
  refine ⟨?_, ?_, ?_, ?_⟩
  · intro e he
    obtain ⟨h1, h2⟩ := call_error_accounting b now α o e he
    rcases hc : call b now o with ⟨b1, r⟩
    rw [hc] at he
    simp at he
    subst he
    rw [hc] at h1 h2
    refine ⟨?_, ?_, ?_⟩
    · simp [executeWithRecovery, hc]
    · simp [executeWithRecovery, hc]
      exact h1
    · simp [executeWithRecovery, hc]
      exact h2
  · intro a ha
    rcases hc : call b now o with ⟨b1, r⟩
    rw [hc] at ha
    simp at ha
    subst ha
    simp [executeWithRecovery, hc]
  · intro hn
    have hr := call_rejected b now α o hn
    simp [executeWithRecovery, hr]
  · intro a ha
    rcases hc : call b now o with ⟨b1, r⟩
    cases r with
    | ok ro =>
      simp [executeWithRecovery, hc] at ha
      subst ha
      rfl
    | error e =>
      simp [executeWithRecovery, hc] at ha

/-- C10 witness: a failing call through a fresh closed breaker returns None
with the failure accounted. -/
theorem c10_execute_recovery_witness :
    (executeWithRecovery (⟨5, 60, CBState.closed, 0, none, 0⟩ : Breaker) 3
        (Outcome.err : Outcome Nat)).2 = none ∧
    (executeWithRecovery (⟨5, 60, CBState.closed, 0, none, 0⟩ : Breaker) 3
        (Outcome.err : Outcome Nat)).1.failureCount = 1 ∧
    (executeWithRecovery (⟨5, 60, CBState.closed, 0, none, 0⟩ : Breaker) 3
        (Outcome.err : Outcome Nat)).1.lastFailureTime = some 3 := by
  have h := (c10_execute_recovery ⟨5, 60, CBState.closed, 0, none, 0⟩ 3 Nat Outcome.err).1
    () (by rfl)
  refine ⟨?_, h.2.1, h.2.2⟩
  rw [h.1]

end HoymilesBridge
